import Mathlib

/-!
Verification development for the OTMS pre-enrolment form-filling automation
(src/automation.py). Strings are modelled as `List Char`; the filesystem and
the browser page are modelled as explicit data passed to the functions; code
that may raise an exception to its caller returns `Except Unit`/`Except`
of an error message. Real-time behaviour (timeouts, sleeps) and the GUI are
outside the model.
-/

/-- Single-quote character (apostrophe), code point 39. -/
def SQ : Char := Char.ofNat 39

/-- Double-quote character, code point 34. -/
def DQ : Char := Char.ofNat 34

/-- Backslash character, code point 92. -/
def BS : Char := Char.ofNat 92

/-- Whitespace for Python `str.strip` / regex `\s` (ASCII range):
space, tab, newline, carriage return, vertical tab, form feed. -/
def isSpaceChar (c : Char) : Bool :=
  c == ' ' || c == Char.ofNat 9 || c == Char.ofNat 10 || c == Char.ofNat 13 ||
  c == Char.ofNat 11 || c == Char.ofNat 12

/-- Python `str.strip()`: drop leading and trailing whitespace. -/
def pyStrip (s : List Char) : List Char :=
  ((s.dropWhile isSpaceChar).reverse.dropWhile isSpaceChar).reverse

/-- Python `str.lower()` (ASCII model). -/
def pyLower (s : List Char) : List Char := s.map Char.toLower

/-- State machine for `re.sub(r"\s+", " ", s)`: the flag records whether the
previous character was whitespace (run already replaced). -/
def collapseAux : Bool → List Char → List Char
  | _, [] => []
  | inWs, c :: rest =>
    if isSpaceChar c then
      (if inWs then collapseAux true rest else ' ' :: collapseAux true rest)
    else c :: collapseAux false rest

/-- `re.sub(r"\s+", " ", s)`: replace each whitespace run by one space. -/
def collapseWs (s : List Char) : List Char := collapseAux false s

/-- `_norm` from src/automation.py:
`re.sub(r"\s+", " ", str(s).strip().lower())`. -/
def _norm (s : List Char) : List Char := collapseWs (pyLower (pyStrip s))

/-- Boolean list-prefix test (first argument is a prefix of the second). -/
def isPrefixL : List Char → List Char → Bool
  | [], _ => true
  | _ :: _, [] => false
  | a :: as, b :: bs => a == b && isPrefixL as bs

/-- Boolean list-suffix test. -/
def isSuffixL (needle hay : List Char) : Bool :=
  isPrefixL needle.reverse hay.reverse

/-- Python substring test `needle in hay`. -/
def isSubstr : List Char → List Char → Bool
  | needle, [] => isPrefixL needle []
  | needle, c :: t => isPrefixL needle (c :: t) || isSubstr needle t

/-- `os.path.join dir name` for a non-empty directory path with no trailing
separator and a relative name. -/
def pathJoin (a b : List Char) : List Char := a ++ '/' :: b

/-! ## Field Setter: text (`fill_text_with_retry`)

One loop iteration of `fill_text_with_retry` interacts with the live page;
its observable behaviour is abstracted as a `TextAttempt`:
`ok v` = element located, cleared and typed into, with read-back value `v`;
`staleOrTimeout b` = a `StaleElementReferenceException`/`TimeoutException`
was raised, and during recovery the `wait_dom_idle` call itself times out
iff `b = true` (in which case that `TimeoutException` is not caught);
`otherError` = any other exception. -/

inductive TextAttempt where
  | ok (readback : List Char)
  | staleOrTimeout (recoveryThrows : Bool)
  | otherError
deriving DecidableEq

/-- `fill_text_with_retry` from src/automation.py. The list holds the
environment's behaviour for the up-to-`retries` loop iterations (one entry
per iteration actually run; exhausting the list = exhausting the retries).
`Except.error ()` models an exception escaping to the caller. -/
def fill_text_with_retry (value : List Char) : List TextAttempt → Except Unit Bool
  | [] => Except.ok false
  | TextAttempt.ok v :: rest =>
    if pyStrip v = pyStrip value then Except.ok true
    else fill_text_with_retry value rest
  | TextAttempt.staleOrTimeout th :: rest =>
    if th then Except.error () else fill_text_with_retry value rest
  | TextAttempt.otherError :: _ => Except.ok false

/-! ## Field Setter: selection (`select_with_retry`) -/

/-- A located `<select>` element: the visible texts of its options and the
text of the currently selected option (`none` = no option selected, in
which case `first_selected_option` raises). -/
structure SelectEl where
  options : List (List Char)
  preselected : Option (List Char)
deriving DecidableEq

/-- Python truthiness of `match` (an optional string). -/
def optTruthy : Option (List Char) → Bool
  | some l => !l.isEmpty
  | none => false

/-- The fuzzy-match fallback inside `select_with_retry`:
`options = [o.text.strip() for o in sel.options]`, then first a
case-insensitive exact match, and if that is falsy a case-insensitive
substring match (`value.lower() in o.lower()`). -/
def fuzzy_match (options : List (List Char)) (value : List Char) : Option (List Char) :=
  let opts := options.map pyStrip
  let m1 := opts.find? (fun o => decide (pyLower o = pyLower value))
  if optTruthy m1 then m1
  else opts.find? (fun o => isSubstr (pyLower value) (pyLower o))

/-- Which option text ends up applied by one `select_with_retry` iteration:
`select_by_visible_text value` succeeds iff some option has exactly that
text; otherwise the fuzzy match is computed and, when truthy, applied with
`select_by_visible_text match` (which raises — `Except.error` — if no
option's raw text equals the stripped match). `Except.ok none` = no
selection action was applied. -/
def select_applied (sel : SelectEl) (value : List Char) : Except Unit (Option (List Char)) :=
  if value ∈ sel.options then Except.ok (some value)
  else
    match fuzzy_match sel.options value with
    | some t =>
      if t.isEmpty then Except.ok none
      else if t ∈ sel.options then Except.ok (some t) else Except.error ()
    | none => Except.ok none

/-- The text of `sel.first_selected_option` after the (attempted) selection:
the applied option if any, otherwise the preselected option; `error` if an
exception was raised (by the apply step, or by `first_selected_option`
itself when nothing is selected). -/
def selected_after (sel : SelectEl) (value : List Char) : Except Unit (Option (List Char)) :=
  match select_applied sel value with
  | Except.error e => Except.error e
  | Except.ok (some t) => Except.ok (some t)
  | Except.ok none =>
    match sel.preselected with
    | some t => Except.ok (some t)
    | none => Except.error ()

/-- Outcome of one `select_with_retry` iteration on a located select:
`success` = `chosen` (stripped) non-empty, return `True`;
`continueLoop` = `chosen` stripped to empty, fall through to next attempt;
`abort` = a generic exception reached the outer handler (break). -/
inductive SelOutcome where
  | success
  | continueLoop
  | abort
deriving DecidableEq

/-- One full iteration of the `select_with_retry` loop body on a located
select element. -/
def select_attempt (sel : SelectEl) (value : List Char) : SelOutcome :=
  match selected_after sel value with
  | Except.error _ => SelOutcome.abort
  | Except.ok none => SelOutcome.abort
  | Except.ok (some t) =>
    if (pyStrip t).isEmpty then SelOutcome.continueLoop else SelOutcome.success

/-- Environment behaviour of one `select_with_retry` loop iteration:
either the select is located (and the iteration proceeds as
`select_attempt`), or a stale/timeout-class failure occurs (recovery
`wait_dom_idle` throwing iff the flag is true), or another exception
occurs (break). -/
inductive SelStep where
  | found (sel : SelectEl)
  | staleOrTimeout (recoveryThrows : Bool)
  | otherError
deriving DecidableEq

/-- `select_with_retry` from src/automation.py, over the behaviours of its
up-to-`retries` loop iterations. -/
def select_with_retry (value : List Char) : List SelStep → Except Unit Bool
  | [] => Except.ok false
  | SelStep.found sel :: rest =>
    match select_attempt sel value with
    | SelOutcome.success => Except.ok true
    | SelOutcome.abort => Except.ok false
    | SelOutcome.continueLoop => select_with_retry value rest
  | SelStep.staleOrTimeout th :: rest =>
    if th then Except.error () else select_with_retry value rest
  | SelStep.otherError :: _ => Except.ok false

/-! ## XPath string literals (`_xpath_literal`) -/

/-- Python `s.split(t)` for a one-character separator, specialised to the
apostrophe: `pySplitSQ s` is `s.split(chr 39)`. -/
def pySplitSQ : List Char → List (List Char)
  | [] => [[]]
  | c :: rest =>
    if c = SQ then [] :: pySplitSQ rest
    else
      match pySplitSQ rest with
      | [] => [[c]]
      | h :: t => (c :: h) :: t

/-- Join a list of strings with a separator (Python `sep.join`). -/
def joinSep (sep : List Char) : List (List Char) → List Char
  | [] => []
  | [x] => x
  | x :: y :: rest => x ++ sep ++ joinSep sep (y :: rest)

/-- The join separator of the concat branch of `_xpath_literal`:
comma, space, a double-quoted apostrophe, comma, space. -/
def xlitSep : List Char := [',', ' ', DQ, SQ, DQ, ',', ' ']

/-- `_xpath_literal` from src/automation.py: a single-quoted literal when the
text has no apostrophe; else a double-quoted literal when it has no double
quote; else `concat(...)` alternating single-quoted parts (obtained by
splitting on the apostrophe) with the double-quoted apostrophe. -/
def _xpath_literal (s : List Char) : List Char :=
  if SQ ∈ s then
    if DQ ∈ s then
      "concat(".data ++
        joinSep xlitSep ((pySplitSQ s).map (fun p => SQ :: (p ++ [SQ]))) ++
        ")".data
    else DQ :: (s ++ [DQ])
  else SQ :: (s ++ [SQ])

/-- A segment of an XPath string-literal expression: a single-quoted or a
double-quoted literal. -/
inductive XSeg where
  | sq (content : List Char)
  | dq (content : List Char)

/-- An XPath expression that denotes a string: a plain literal, or a
`concat` of literal segments. -/
inductive XLit where
  | lit (seg : XSeg)
  | cat (args : List XSeg)

/-- Syntactic validity of a segment: its content must not contain its own
quote character. -/
def segValid : XSeg → Prop
  | XSeg.sq c => SQ ∉ c
  | XSeg.dq c => DQ ∉ c

/-- Concrete XPath syntax of a segment. -/
def segRender : XSeg → List Char
  | XSeg.sq c => SQ :: (c ++ [SQ])
  | XSeg.dq c => DQ :: (c ++ [DQ])

/-- The string value a segment denotes. -/
def segEval : XSeg → List Char
  | XSeg.sq c => c
  | XSeg.dq c => c

/-- Syntactic validity of an XPath string expression; XPath `concat`
requires at least two arguments. -/
def xlitValid : XLit → Prop
  | XLit.lit seg => segValid seg
  | XLit.cat args => 2 ≤ args.length ∧ ∀ a ∈ args, segValid a

/-- Concrete XPath syntax of a string expression. -/
def xlitRender : XLit → List Char
  | XLit.lit seg => segRender seg
  | XLit.cat args => "concat(".data ++ joinSep (", ".data) (args.map segRender) ++ ")".data

/-- The string value an XPath string expression evaluates to. -/
def xlitEval : XLit → List Char
  | XLit.lit seg => segEval seg
  | XLit.cat args => (args.map segEval).flatten

/-- The segments of the concat branch: single-quoted parts alternating with
the double-quoted apostrophe. -/
def interleaveParts : List (List Char) → List XSeg
  | [] => []
  | [p] => [XSeg.sq p]
  | p :: q :: rest => XSeg.sq p :: XSeg.dq [SQ] :: interleaveParts (q :: rest)

/-! ## Locator (`by_label_input`, `by_label_select`)

The page is modelled as a function from an XPath query string to either a
present element (a handle, `Nat`) or the error raised by the wait. -/

/-- The four XPath strategies of `by_label_input`, in source order:
table-row/input, table-row/textarea, following/input, following/textarea. -/
def input_xpaths (label : List Char) : List (List Char) :=
  let L := _xpath_literal label
  [ "//tr[td[normalize-space()=".data ++ L ++
      "]]/td[position()=2]//input[not(@type=".data ++ (SQ :: "hidden".data ++ [SQ]) ++ ")]".data,
    "//tr[td[normalize-space()=".data ++ L ++ "]]/td[position()=2]//textarea".data,
    "//*[normalize-space()=".data ++ L ++
      "]/following::input[not(@type=".data ++ (SQ :: "hidden".data ++ [SQ]) ++ ")][1]".data,
    "//*[normalize-space()=".data ++ L ++ "]/following::textarea[1]".data ]

/-- The two XPath strategies of `by_label_select`, in source order:
table-row/select, following/select. -/
def select_xpaths (label : List Char) : List (List Char) :=
  let L := _xpath_literal label
  [ "//tr[td[normalize-space()=".data ++ L ++ "]]/td[position()=2]//select".data,
    "//*[normalize-space()=".data ++ L ++ "]/following::select[1]".data ]

/-- The strategy loop shared by both locators: try each XPath in order,
return the first present element, remembering the last error. -/
def locate_loop (page : List Char → Except (List Char) Nat) (lastErr : Option (List Char)) :
    List (List Char) → Except (Option (List Char)) Nat
  | [] => Except.error lastErr
  | xp :: rest =>
    match page xp with
    | Except.ok el => Except.ok el
    | Except.error e => locate_loop page (some e) rest

/-- The failure message raised when every strategy fails:
`{what} for label: {label} ({last_err})`, with Python rendering `None`
for an absent last error. -/
def locate_err_msg (what label : List Char) (lastErr : Option (List Char)) : List Char :=
  what ++ " for label: ".data ++ label ++ " (".data ++
    (match lastErr with | none => "None".data | some e => e) ++ ")".data

/-- `by_label_input` from src/automation.py (element scroll-into-view side
effect not modelled). -/
def by_label_input (page : List Char → Except (List Char) Nat) (label : List Char) :
    Except (List Char) Nat :=
  match locate_loop page none (input_xpaths label) with
  | Except.ok el => Except.ok el
  | Except.error le => Except.error (locate_err_msg ("Could not locate input/textarea".data) label le)

/-- `by_label_select` from src/automation.py. -/
def by_label_select (page : List Char → Except (List Char) Nat) (label : List Char) :
    Except (List Char) Nat :=
  match locate_loop page none (select_xpaths label) with
  | Except.ok el => Except.ok el
  | Except.error le => Except.error (locate_err_msg ("Could not locate select".data) label le)

/-! ## Document Resolver (`find_person_folder`, `find_pdf_by_prefix`)

A directory is modelled as its `os.path.isdir` answer plus its `os.listdir`
listing (in listing order); each entry carries its `isdir`/`isfile`
answers for the joined path. -/

structure FsEntry where
  name : List Char
  isDir : Bool
  isFile : Bool
deriving DecidableEq

structure Folder where
  isDir : Bool
  listing : List FsEntry
deriving DecidableEq

/-- First pass of `find_person_folder`: the first listed entry that is a
directory and whose normalized name equals the target. -/
def person_exact_loop (base_dir target : List Char) : List FsEntry → Option (List Char)
  | [] => none
  | e :: rest =>
    if e.isDir = true ∧ _norm e.name = target then some (pathJoin base_dir e.name)
    else person_exact_loop base_dir target rest

/-- Fallback pass of `find_person_folder`: the first listed entry that is a
directory and whose normalized name contains the target
(`target in _norm(entry)`). -/
def person_fuzzy_loop (base_dir target : List Char) : List FsEntry → Option (List Char)
  | [] => none
  | e :: rest =>
    if e.isDir = true ∧ isSubstr target (_norm e.name) = true then some (pathJoin base_dir e.name)
    else person_fuzzy_loop base_dir target rest

/-- `find_person_folder` from src/automation.py: `fs` is the filesystem view
at `base_dir`. -/
def find_person_folder (base_dir : List Char) (fs : Folder) (person_name : List Char) :
    Option (List Char) :=
  let target := _norm person_name
  if fs.isDir = false then none
  else
    match person_exact_loop base_dir target fs.listing with
    | some p => some p
    | none => person_fuzzy_loop base_dir target fs.listing

/-- The characters removed from the person name before building candidate
filenames: `re.sub` of the class backslash, slash, colon, star, question
mark, double quote, less-than, greater-than, pipe. -/
def illegalChar (c : Char) : Bool :=
  c == BS || c == '/' || c == ':' || c == '*' || c == '?' || c == DQ ||
  c == '<' || c == '>' || c == '|'

/-- `re.sub(r'[\\/:*?"<>|]', '', person_name).strip()`. -/
def stripIllegal (s : List Char) : List Char :=
  pyStrip (s.filter (fun c => !illegalChar c))

/-- Whether a directory entry name matches the glob pattern
`{code_prefix}*.pdf`: literal code prefix, anything, literal `.pdf`; a
leading wildcard does not match a hidden (dot) file. Assumes the code
prefix contains no glob metacharacters (true of the callers: 002/003/004). -/
def globMatch (pref name : List Char) : Bool :=
  isPrefixL pref name && isSuffixL (".pdf".data) name &&
  decide (pref.length + 4 ≤ name.length) &&
  (!pref.isEmpty || !isPrefixL (".".data) name)

/-- `glob.glob(os.path.join(folder, f"{code_prefix}*.pdf"))`, as entry names
relative to the folder, in listing order. -/
def glob_pdfs (fs : Folder) (pref : List Char) : List (List Char) :=
  (fs.listing.filter (fun e => globMatch pref e.name)).map (fun e => e.name)

/-- `os.path.isfile(os.path.join(folder, name))` against the folder view. -/
def isFileIn (fs : Folder) (n : List Char) : Bool :=
  fs.listing.any (fun e => e.isFile && decide (e.name = n))

/-- The candidate list of `find_pdf_by_prefix`, as names relative to the
folder: the three constructed names (space / underscore / hyphen between
code prefix and cleaned person name, `.pdf` extension), then every glob
match of `{code_prefix}*.pdf`. -/
def pdf_candidates (fs : Folder) (pref base : List Char) : List (List Char) :=
  [ pref ++ ' ' :: (base ++ ".pdf".data),
    pref ++ '_' :: (base ++ ".pdf".data),
    pref ++ '-' :: (base ++ ".pdf".data) ] ++ glob_pdfs fs pref

/-- First pass of `find_pdf_by_prefix`: the first candidate that is an
existing file, ends with `.pdf` case-insensitively, and whose normalized
basename contains the normalized cleaned person name. -/
def pdf_pref_loop (fs : Folder) (folder lname : List Char) : List (List Char) → Option (List Char)
  | [] => none
  | n :: rest =>
    if isFileIn fs n = true ∧ isSuffixL (".pdf".data) (pyLower n) = true ∧
        isSubstr lname (_norm n) = true then
      some (pathJoin folder n)
    else pdf_pref_loop fs folder lname rest

/-- Fallback pass of `find_pdf_by_prefix`: the first candidate that is an
existing file ending with `.pdf` case-insensitively. -/
def pdf_fallback_loop (fs : Folder) (folder : List Char) : List (List Char) → Option (List Char)
  | [] => none
  | n :: rest =>
    if isFileIn fs n = true ∧ isSuffixL (".pdf".data) (pyLower n) = true then
      some (pathJoin folder n)
    else pdf_fallback_loop fs folder rest

/-- `find_pdf_by_prefix` from src/automation.py (source name kept in the doc
comment; `fs` is the filesystem view at `folder`). `folder` empty models a
falsy folder argument. -/
def find_pdf_by_code (folder : List Char) (fs : Folder) (pref person_name : List Char) :
    Option (List Char) :=
  if folder.isEmpty || !fs.isDir then none
  else
    let base := stripIllegal person_name
    let cands := pdf_candidates fs pref base
    let lname := _norm base
    match pdf_pref_loop fs folder lname cands with
    | some p => some p
    | none => pdf_fallback_loop fs folder cands

/-! Spec-side definitions, written from the claims' words, for the
refinement-style claims about the Document Resolver. -/

/-- Written from the claim for the person-folder lookup (amended reading):
case/whitespace-insensitive exact match against subdirectory names first;
only if no exact match exists, the first subdirectory whose normalized
name contains the normalized person name; otherwise absent. -/
def find_person_spec (base_dir : List Char) (fs : Folder) (person_name : List Char) :
    Option (List Char) :=
  let target := _norm person_name
  if fs.isDir = false then none
  else
    match fs.listing.find? (fun e => e.isDir && decide (_norm e.name = target)) with
    | some e => some (pathJoin base_dir e.name)
    | none =>
      (fs.listing.find? (fun e => e.isDir && isSubstr target (_norm e.name))).map
        (fun e => pathJoin base_dir e.name)

/-- Written from the claim for the document lookup: among the constructed
candidates that exist on disk as `.pdf` files, the first whose filename
case/whitespace-insensitively contains the normalized person name if such
a candidate exists; otherwise the first existing candidate (all candidates
match the code prefix); otherwise absent. -/
def find_pdf_spec (folder : List Char) (fs : Folder) (pref person_name : List Char) :
    Option (List Char) :=
  if folder.isEmpty || !fs.isDir then none
  else
    let base := stripIllegal person_name
    let cands := pdf_candidates fs pref base
    let lname := _norm base
    let existing := cands.filter
      (fun n => isFileIn fs n && isSuffixL (".pdf".data) (pyLower n))
    match existing.find? (fun n => isSubstr lname (_norm n)) with
    | some n => some (pathJoin folder n)
    | none => existing.head?.map (pathJoin folder)

/-! ## Form Filler orchestration (`fill_otms_form`)

The run is modelled as the list of its externally observable actions; the
stop flag is a function of the number of `stop_check()` calls made so far
(a one-way latch is a monotone such function). Pause checkpoints block but
eventually return and are not modelled; status messages other than the
stop notification are not modelled. -/

inductive Ev where
  | navigate
  | upload (label : List Char) (path : List Char)
  | fillField (label : List Char)
  | stopped
  | complete
deriving DecidableEq

/-- One spreadsheet-row cell: column absent from the row, present but NA,
or present with a string value. -/
inductive RowCell where
  | absent
  | na
  | val (s : List Char)

/-- The environment of one `fill_otms_form` run. -/
structure OrchEnv where
  /-- a target URL was provided (truthy `url`) -/
  url : Bool
  /-- the base folder path (empty = not supplied / falsy `base_dir`) -/
  base_dir_path : List Char
  /-- filesystem view at the base folder -/
  baseFs : Folder
  /-- filesystem view at any resolved person folder path -/
  folderFs : List Char → Folder
  /-- the selected row, by normalized column name -/
  row : List Char → RowCell
  /-- whether the file-input control for an upload label is located in time -/
  uploadLoc : List Char → Bool

/-- The name-column aliases checked in priority order. -/
def person_aliases : List (List Char) :=
  ["name in ic/passport".data, "name in ic".data, "name".data]

/-- Derivation of the person display name from the row: first alias whose
cell is present, non-NA and non-blank after stripping; the stripped value. -/
def person_name_loop (row : List Char → RowCell) : List (List Char) → Option (List Char)
  | [] => none
  | c :: rest =>
    match row c with
    | RowCell.val s =>
      if (pyStrip s).isEmpty then person_name_loop row rest else some (pyStrip s)
    | _ => person_name_loop row rest

/-- The three upload slots of `fill_otms_form`, in source order:
(display label, document code prefix). -/
def uploadsList : List (List Char × List Char) :=
  [ ("Upload Identity Card (IC)".data, "002".data),
    ("Upload passport".data, "003".data),
    ("Upload highest qualification or most relevent certification".data, "004".data) ]

inductive FieldKind where
  | text
  | choice
deriving DecidableEq

/-- The label → (kind, source column) mapping of `fill_otms_form`, in source
(insertion) order. `FieldKind.choice` stands for the source's "select". -/
def mappingList : List (List Char × FieldKind × List Char) :=
  [ ("Name as in IC/Passport".data, FieldKind.text, "name in ic/passport".data),
    ("Sex".data, FieldKind.choice, "sex".data),
    ("Country of Birth".data, FieldKind.choice, "nationality".data),
    ("State/Province of Birth".data, FieldKind.choice, "province of birth".data),
    ("Place of Birth".data, FieldKind.text, "place of township".data),
    ("IC Number".data, FieldKind.text, "ic number".data),
    ("Passport Number".data, FieldKind.text, "passport number".data),
    ("Date of Issue".data, FieldKind.text, "passport date of issue".data),
    ("Date of Expiry".data, FieldKind.text, "passport date of expiry".data),
    ("Date of Birth".data, FieldKind.text, "date of birth".data),
    ("Father".data ++ SQ :: "s Name".data, FieldKind.text, "father name".data),
    ("Mother".data ++ SQ :: "s Name".data, FieldKind.text, "mother name".data),
    ("Current Address".data, FieldKind.text, "current address".data),
    ("Awarded Institute".data, FieldKind.text, "school name of highest qualification".data),
    ("Year".data, FieldKind.choice, "year of graduation".data) ]

/-- The upload-slot loop: each iteration first consults the stop flag
(returning with the stop notification if set), then resolves the document
and, when found and the file input is located, records the upload. The
returned triple is (events, stop-checks consumed, stopped?). -/
def runUploadSlots (env : OrchEnv) (stop : Nat → Bool) (pf pname : List Char) :
    Nat → List (List Char × List Char) → List Ev × Nat × Bool
  | k, [] => ([], k, false)
  | k, (label, code) :: rest =>
    if stop k then ([Ev.stopped], k + 1, true)
    else
      let evs :=
        match find_pdf_by_code pf (env.folderFs pf) code pname with
        | none => []
        | some fpath => if env.uploadLoc label then [Ev.upload label fpath] else []
      match runUploadSlots env stop pf pname (k + 1) rest with
      | (t, kk, halted) => (evs ++ t, kk, halted)

/-- The field loop: each iteration first consults the stop flag, then skips
absent/NA/blank source cells, and otherwise invokes the Field Setter
(whose per-field failures are caught and logged, never aborting the loop). -/
def runFields (env : OrchEnv) (stop : Nat → Bool) :
    Nat → List (List Char × FieldKind × List Char) → List Ev × Nat × Bool
  | k, [] => ([], k, false)
  | k, (label, _kind, col) :: rest =>
    if stop k then ([Ev.stopped], k + 1, true)
    else
      let evs :=
        match env.row col with
        | RowCell.absent => []
        | RowCell.na => []
        | RowCell.val s => if (pyStrip s).isEmpty then [] else [Ev.fillField label]
      match runFields env stop (k + 1) rest with
      | (t, kk, halted) => (evs ++ t, kk, halted)

/-- The field phase followed by the completion notification (absent when the
loop observed the stop flag). -/
def run_fields_phase (env : OrchEnv) (stop : Nat → Bool) (k : Nat) : List Ev :=
  match runFields env stop k mappingList with
  | (evs, _, halted) => if halted then evs else evs ++ [Ev.complete]

/-- `fill_otms_form` from src/automation.py, as its observable event trace:
navigate when a URL is given; then, when both a base folder and a person
name are available and the person folder resolves, the upload-slot loop;
then (unless stopped) the field loop and the completion notification. -/
def fill_otms_form (env : OrchEnv) (stop : Nat → Bool) : List Ev :=
  let nav := if env.url then [Ev.navigate] else []
  let gate := if env.base_dir_path.isEmpty then none else person_name_loop env.row person_aliases
  nav ++
    match gate with
    | none => run_fields_phase env stop 0
    | some pname =>
      match find_person_folder env.base_dir_path env.baseFs pname with
      | none => run_fields_phase env stop 0
      | some pf =>
        match runUploadSlots env stop pf pname 0 uploadsList with
        | (upEvs, k, halted) =>
          if halted then upEvs else upEvs ++ run_fields_phase env stop k

/-! ## Helper lemmas -/

instance {e a : Type} [DecidableEq e] [DecidableEq a] : DecidableEq (Except e a) := fun x y =>
  match x, y with
  | Except.ok x, Except.ok y =>
    if h : x = y then isTrue (by rw [h]) else isFalse (fun hc => h (Except.ok.inj hc))
  | Except.error x, Except.error y =>
    if h : x = y then isTrue (by rw [h]) else isFalse (fun hc => h (Except.error.inj hc))
  | Except.ok _, Except.error _ => isFalse (fun hc => Except.noConfusion hc)
  | Except.error _, Except.ok _ => isFalse (fun hc => Except.noConfusion hc)

theorem isPrefixL_append_self (xs ys : List Char) : isPrefixL xs (xs ++ ys) = true := by
  induction xs with
  | nil => rfl
  | cons a as ih => simp [isPrefixL, ih]

theorem isSubstr_of_isPrefixL {n h : List Char} (hp : isPrefixL n h = true) :
    isSubstr n h = true := by
  cases h with
  | nil => simpa [isSubstr] using hp
  | cons c t => simp [isSubstr, hp]

theorem isSubstr_mid (a b c : List Char) : isSubstr b (a ++ (b ++ c)) = true := by
  induction a with
  | nil => exact isSubstr_of_isPrefixL (isPrefixL_append_self b c)
  | cons x xs ih => simp [isSubstr, ih]

theorem isSubstr_nil_left (h : List Char) : isSubstr [] h = true := by
  cases h <;> simp [isSubstr, isPrefixL]

theorem pyLower_eq_nil {o : List Char} : pyLower o = [] ↔ o = [] := by
  simp [pyLower]

/-! ## Claim C1: text setter succeeds only with verified readback -/

/-- Claim C1: whenever `fill_text_with_retry` returns true, the value read
back from the target element on the succeeding attempt equals the intended
value after trimming; success arises only through this readback
verification. -/
theorem C1_text_setter_verified (value : List Char) (attempts : List TextAttempt)
    (h : fill_text_with_retry value attempts = Except.ok true) :
    ∃ v, TextAttempt.ok v ∈ attempts ∧ pyStrip v = pyStrip value := by
  induction attempts with
  | nil => simp [fill_text_with_retry] at h
  | cons a rest ih =>
    cases a with
    | ok v =>
      by_cases hv : pyStrip v = pyStrip value
      · exact ⟨v, List.mem_cons_self _ _, hv⟩
      · rw [fill_text_with_retry, if_neg hv] at h
        obtain ⟨w, hw, hweq⟩ := ih h
        exact ⟨w, List.mem_cons_of_mem _ hw, hweq⟩
    | staleOrTimeout th =>
      cases th with
      | true => simp [fill_text_with_retry] at h
      | false =>
        rw [fill_text_with_retry, if_neg (by simp)] at h
        obtain ⟨w, hw, hweq⟩ := ih h
        exact ⟨w, List.mem_cons_of_mem _ hw, hweq⟩
    | otherError => simp [fill_text_with_retry] at h

/-- Witness for C1 at a concrete run: a readback of `" a "` verifies the
intended value `"a"`. -/
theorem C1_witness :
    ∃ v, TextAttempt.ok v ∈ [TextAttempt.ok (" a ".data)] ∧ pyStrip v = pyStrip ("a".data) :=
  C1_text_setter_verified ("a".data) [TextAttempt.ok (" a ".data)] (by decide)

/-! ## Claim C5: the setters can in fact throw (corrected) -/

/-- Counterexample to C5 as stated: on a transient (stale/timeout) failure
whose recovery `wait_dom_idle` itself times out, both setters propagate the
exception to the caller instead of returning false. -/
theorem C5_counterexample :
    fill_text_with_retry ("x".data) [TextAttempt.staleOrTimeout true] = Except.error () ∧
    select_with_retry ("x".data) [SelStep.staleOrTimeout true] = Except.error () := by
  constructor <;> rfl

/-- Claim C5 as amended: provided no stale/timeout recovery's DOM-idle wait
itself times out, neither setter throws — on exhaustion or a non-transient
failure each returns a boolean (false) rather than propagating an
exception. -/
theorem C5_amended_no_throw (value : List Char) (ta : List TextAttempt) (sa : List SelStep)
    (hta : ∀ b, TextAttempt.staleOrTimeout b ∈ ta → b = false)
    (hsa : ∀ b, SelStep.staleOrTimeout b ∈ sa → b = false) :
    (∃ r, fill_text_with_retry value ta = Except.ok r) ∧
    (∃ r, select_with_retry value sa = Except.ok r) := by
  constructor
  · clear hsa
    induction ta with
    | nil => exact ⟨false, rfl⟩
    | cons a rest ih =>
      have ihr := ih (fun b hb => hta b (List.mem_cons_of_mem _ hb))
      cases a with
      | ok v =>
        by_cases hv : pyStrip v = pyStrip value
        · exact ⟨true, by rw [fill_text_with_retry, if_pos hv]⟩
        · obtain ⟨r, hr⟩ := ihr
          exact ⟨r, by rw [fill_text_with_retry, if_neg hv]; exact hr⟩
      | staleOrTimeout th =>
        have : th = false := hta th (List.mem_cons_self _ _)
        subst this
        obtain ⟨r, hr⟩ := ihr
        exact ⟨r, by rw [fill_text_with_retry, if_neg (by simp)]; exact hr⟩
      | otherError => exact ⟨false, rfl⟩
  · clear hta
    induction sa with
    | nil => exact ⟨false, rfl⟩
    | cons a rest ih =>
      have ihr := ih (fun b hb => hsa b (List.mem_cons_of_mem _ hb))
      cases a with
      | found sel =>
        cases hs : select_attempt sel value with
        | success => exact ⟨true, by rw [select_with_retry, hs]⟩
        | abort => exact ⟨false, by rw [select_with_retry, hs]⟩
        | continueLoop =>
          obtain ⟨r, hr⟩ := ihr
          exact ⟨r, by rw [select_with_retry, hs]; exact hr⟩
      | staleOrTimeout th =>
        have : th = false := hsa th (List.mem_cons_self _ _)
        subst this
        obtain ⟨r, hr⟩ := ihr
        exact ⟨r, by rw [select_with_retry, if_neg (by simp)]; exact hr⟩
      | otherError => exact ⟨false, rfl⟩

/-- Witness for the amended C5 at concrete runs with no throwing recovery. -/
theorem C5_witness :
    (∃ r, fill_text_with_retry ("x".data)
      [TextAttempt.staleOrTimeout false, TextAttempt.otherError] = Except.ok r) ∧
    (∃ r, select_with_retry ("x".data) [SelStep.staleOrTimeout false] = Except.ok r) :=
  C5_amended_no_throw ("x".data)
    [TextAttempt.staleOrTimeout false, TextAttempt.otherError]
    [SelStep.staleOrTimeout false]
    (by intro b hb; simp at hb; simpa using hb)
    (by intro b hb; simp at hb; simpa using hb)

/-! ## Claim C9: resolver functions are total on absent directories -/

/-- Claim C9: on a non-directory base, `find_person_folder` returns absent
(no exception is modelled: the function is total); likewise
`find_pdf_by_prefix` (here `find_pdf_by_code`) on a falsy or non-directory
folder. -/
theorem C9_absent_dirs (base name folder pref pname : List Char) (fs fs2 : Folder)
    (h1 : fs.isDir = false) (h2 : folder.isEmpty = true ∨ fs2.isDir = false) :
    find_person_folder base fs name = none ∧
    find_pdf_by_code folder fs2 pref pname = none := by
  constructor
  · rw [find_person_folder]
    simp [h1]
  · rw [find_pdf_by_code]
    rcases h2 with h | h <;> simp [h]

/-- Witness for C9 at concrete absent/non-directory inputs. -/
theorem C9_witness :
    find_person_folder ("B".data) ⟨false, []⟩ ("x".data) = none ∧
    find_pdf_by_code [] ⟨false, []⟩ ("002".data) ("x".data) = none :=
  C9_absent_dirs ("B".data) ("x".data) [] ("002".data) ("x".data)
    ⟨false, []⟩ ⟨false, []⟩ rfl (Or.inl rfl)

/-! ## Claim C4: selection matching order and weak verification -/

theorem find_ci_of_exists (l : List (List Char)) (value : List Char)
    (h : ∃ o ∈ l, pyLower o = pyLower value ∧ o ≠ []) :
    ∃ t, l.find? (fun o => decide (pyLower o = pyLower value)) = some t ∧
      pyLower t = pyLower value ∧ t ≠ [] := by
  obtain ⟨o, ho, heq, hne⟩ := h
  have hsome : (l.find? (fun o => decide (pyLower o = pyLower value))).isSome := by
    rw [List.find?_isSome]
    exact ⟨o, ho, by simp [heq]⟩
  obtain ⟨t, ht⟩ := Option.isSome_iff_exists.mp hsome
  have hpt : pyLower t = pyLower value := by
    have := List.find?_some ht
    exact of_decide_eq_true this
  refine ⟨t, ht, hpt, ?_⟩
  intro htnil
  subst htnil
  have : pyLower o = [] := heq.trans hpt.symm
  exact hne (pyLower_eq_nil.mp this)

/-- Claim C4: `select_with_retry` matches options in the fixed order exact
visible text, then case-insensitive exact, then case-insensitive
substring; an exact-text option is always chosen over any fuzzy match, the
case-insensitive exact match beats the substring match, and an attempt
succeeds iff the read-back selected text is non-empty after stripping —
the final closed conjunct shows success with a selected option differing
from the intended value. -/
theorem C4_selection_order (sel : SelectEl) (value : List Char) :
    (value ∈ sel.options → select_applied sel value = Except.ok (some value)) ∧
    ((∃ o ∈ sel.options.map pyStrip, pyLower o = pyLower value ∧ o ≠ []) →
      ∃ t, fuzzy_match sel.options value = some t ∧ pyLower t = pyLower value) ∧
    ((¬ ∃ o ∈ sel.options.map pyStrip, pyLower o = pyLower value ∧ o ≠ []) →
      ∀ t, fuzzy_match sel.options value = some t →
        isSubstr (pyLower value) (pyLower t) = true) ∧
    (select_attempt sel value = SelOutcome.success ↔
      ∃ t, selected_after sel value = Except.ok (some t) ∧ (pyStrip t).isEmpty = false) ∧
    (select_attempt ⟨["Male".data], none⟩ ("M".data) = SelOutcome.success ∧
      selected_after ⟨["Male".data], none⟩ ("M".data) = Except.ok (some ("Male".data)) ∧
      "Male".data ≠ "M".data) := by
  refine ⟨?_, ?_, ?_, ?_, by decide⟩
  · intro hmem
    rw [select_applied, if_pos hmem]
  · intro hex
    obtain ⟨t, ht, heq, hne⟩ := find_ci_of_exists (sel.options.map pyStrip) value hex
    refine ⟨t, ?_, heq⟩
    rw [fuzzy_match]
    simp only [ht]
    have : optTruthy (some t) = true := by
      simp [optTruthy, List.isEmpty_iff, hne]
    rw [if_pos this]
  · intro hnex t hft
    rw [fuzzy_match] at hft
    set m1 := (sel.options.map pyStrip).find? (fun o => decide (pyLower o = pyLower value))
      with hm1
    have hm1f : optTruthy m1 = false := by
      cases hm : m1 with
      | none => simp [optTruthy]
      | some t0 =>
        have hp : pyLower t0 = pyLower value := by
          have := List.find?_some (hm1 ▸ hm)
          exact of_decide_eq_true this
        have hmem : t0 ∈ sel.options.map pyStrip := List.mem_of_find?_eq_some (hm1 ▸ hm)
        by_cases ht0 : t0 = []
        · subst ht0; simp [optTruthy]
        · exact absurd ⟨t0, hmem, hp, ht0⟩ hnex
    rw [if_neg (by simp [hm1f])] at hft
    have h2 := List.find?_some hft
    simpa using h2
  · rw [select_attempt]
    cases hsa : selected_after sel value with
    | error e =>
      constructor
      · intro hc; exact SelOutcome.noConfusion hc
      · rintro ⟨t, ht, -⟩; exact Except.noConfusion ht
    | ok o =>
      cases o with
      | none =>
        constructor
        · intro hc; exact SelOutcome.noConfusion hc
        · rintro ⟨t, ht, -⟩; simp at ht
      | some t =>
        show (if (pyStrip t).isEmpty = true then SelOutcome.continueLoop
            else SelOutcome.success) = SelOutcome.success ↔
          ∃ t2, Except.ok (some t) = Except.ok (some t2) ∧ (pyStrip t2).isEmpty = false
        by_cases he : (pyStrip t).isEmpty = true
        · rw [if_pos he]
          constructor
          · intro hc; exact SelOutcome.noConfusion hc
          · rintro ⟨t2, ht2, hne⟩
            have ht' : t = t2 := by simpa using ht2
            rw [← ht', he] at hne
            exact Bool.noConfusion hne
        · rw [if_neg he]
          exact ⟨fun _ => ⟨t, rfl, by simpa using he⟩, fun _ => rfl⟩

/-- Witness for C4 at concrete selects, discharging each hypothesis: an
exact-text option is applied as-is; a non-empty case-insensitive exact
match is found; with no such match the substring rule applies. -/
theorem C4_witness :
    select_applied ⟨["A".data], none⟩ ("A".data) = Except.ok (some ("A".data)) ∧
    (∃ t, fuzzy_match ["a".data] ("A".data) = some t ∧ pyLower t = pyLower ("A".data)) ∧
    isSubstr (pyLower ("b".data)) (pyLower ("ab".data)) = true := by
  refine ⟨(C4_selection_order ⟨["A".data], none⟩ ("A".data)).1 (by decide), ?_, ?_⟩
  · exact (C4_selection_order ⟨["a".data], none⟩ ("A".data)).2.1
      ⟨"a".data, by decide, by decide, by decide⟩
  · exact (C4_selection_order ⟨["ab".data], none⟩ ("b".data)).2.2.1
      (by decide) ("ab".data) (by decide)

/-! ## Claims C2, C3, C10: Document Resolver -/

theorem person_exact_loop_eq (b t : List Char) (l : List FsEntry) :
    person_exact_loop b t l =
      (l.find? (fun e => e.isDir && decide (_norm e.name = t))).map
        (fun e => pathJoin b e.name) := by
  induction l with
  | nil => rfl
  | cons e rest ih =>
    cases hd : e.isDir <;> by_cases hn : _norm e.name = t <;>
      simp [person_exact_loop, List.find?_cons, hd, hn, ih]

theorem person_fuzzy_loop_eq (b t : List Char) (l : List FsEntry) :
    person_fuzzy_loop b t l =
      (l.find? (fun e => e.isDir && isSubstr t (_norm e.name))).map
        (fun e => pathJoin b e.name) := by
  induction l with
  | nil => rfl
  | cons e rest ih =>
    cases hd : e.isDir <;> cases hn : isSubstr t (_norm e.name) <;>
      simp [person_fuzzy_loop, List.find?_cons, hd, hn, ih]

theorem pdf_pref_loop_eq (fs : Folder) (folder lname : List Char) (cs : List (List Char)) :
    pdf_pref_loop fs folder lname cs =
      ((cs.filter (fun n => isFileIn fs n && isSuffixL (".pdf".data) (pyLower n))).find?
        (fun n => isSubstr lname (_norm n))).map (pathJoin folder) := by
  induction cs with
  | nil => rfl
  | cons n rest ih =>
    cases h1 : isFileIn fs n <;> cases h2 : isSuffixL (".pdf".data) (pyLower n) <;>
      cases h3 : isSubstr lname (_norm n) <;>
      simp [pdf_pref_loop, List.filter_cons, List.find?_cons, h1, h2, h3, ih]

theorem pdf_fallback_loop_eq (fs : Folder) (folder : List Char) (cs : List (List Char)) :
    pdf_fallback_loop fs folder cs =
      ((cs.filter (fun n => isFileIn fs n && isSuffixL (".pdf".data) (pyLower n))).head?).map
        (pathJoin folder) := by
  induction cs with
  | nil => rfl
  | cons n rest ih =>
    cases h1 : isFileIn fs n <;> cases h2 : isSuffixL (".pdf".data) (pyLower n) <;>
      simp [pdf_fallback_loop, List.filter_cons, h1, h2, ih]

/-- Claim C2: the document lookup refines its specification — among the
constructed candidates existing on disk as `.pdf` files it returns the
first whose filename case/whitespace-insensitively contains the normalized
person name, else the first existing candidate, else absent — together
with the three concrete scenarios of the claim: the exactly-named file,
the case/underscore variant (via the prefix fallback), and absence when no
file carries the `002` prefix. -/
theorem C2_document_lookup :
    (∀ folder fs pref pname,
      find_pdf_by_code folder fs pref pname = find_pdf_spec folder fs pref pname) ∧
    find_pdf_by_code ("F".data) ⟨true, [⟨"002 John Smith.pdf".data, false, true⟩]⟩
        ("002".data) ("John Smith".data)
      = some (pathJoin ("F".data) ("002 John Smith.pdf".data)) ∧
    find_pdf_by_code ("F".data) ⟨true, [⟨"002_john_smith.pdf".data, false, true⟩]⟩
        ("002".data) ("John Smith".data)
      = some (pathJoin ("F".data) ("002_john_smith.pdf".data)) ∧
    find_pdf_by_code ("F".data) ⟨true, [⟨"003 John Smith.pdf".data, false, true⟩]⟩
        ("002".data) ("John Smith".data)
      = none := by
  refine ⟨?_, by decide, by decide, by decide⟩
  intro folder fs pref pname
  rw [find_pdf_by_code, find_pdf_spec]
  by_cases h : (folder.isEmpty || !fs.isDir) = true
  · rw [if_pos h, if_pos h]
  · rw [if_neg h, if_neg h]
    simp only [pdf_pref_loop_eq, pdf_fallback_loop_eq]
    cases hf : ((pdf_candidates fs pref (stripIllegal pname)).filter
        (fun n => isFileIn fs n && isSuffixL (".pdf".data) (pyLower n))).find?
        (fun n => isSubstr (_norm (stripIllegal pname)) (_norm n)) <;>
      simp [hf]

/-- Counterexample to C3 as stated: with the single subdirectory `John` and
person name `John Smith`, the normalized entry name is contained in the
normalized person name (the claimed "or vice versa" direction of the
fallback), yet `find_person_folder` returns absent — the code's fallback
tests only target-in-entry containment. -/
theorem C3_counterexample :
    find_person_folder ("B".data) ⟨true, [⟨"John".data, true, false⟩]⟩ ("John Smith".data)
      = none ∧
    isSubstr (_norm ("John".data)) (_norm ("John Smith".data)) = true := by
  constructor <;> decide

/-- Claim C3 as amended (the fallback tests only whether the subdirectory
name contains the normalized person name, not the reverse):
`find_person_folder` refines the specification — exact normalized match
first, and only if no exact match exists the first subdirectory whose
normalized name contains the normalized person name — and the concrete
scenario of the claim: subdirectories `John Smith`, `Jane Doe` with query
`john   smith` resolve to the `John Smith` path. -/
theorem C3_folder_lookup_amended :
    (∀ base fs pname,
      find_person_folder base fs pname = find_person_spec base fs pname) ∧
    find_person_folder ("B".data)
        ⟨true, [⟨"John Smith".data, true, false⟩, ⟨"Jane Doe".data, true, false⟩]⟩
        ("john   smith".data)
      = some (pathJoin ("B".data) ("John Smith".data)) := by
  refine ⟨?_, by decide⟩
  intro base fs pname
  rw [find_person_folder, find_person_spec]
  by_cases h : fs.isDir = false
  · rw [if_pos h, if_pos h]
  · rw [if_neg h, if_neg h]
    simp only [person_exact_loop_eq, person_fuzzy_loop_eq]
    cases hf : fs.listing.find? (fun e => e.isDir && decide (_norm e.name = _norm pname)) <;>
      simp [hf]

/-- Counterexample to C10 as stated: person name normalizing to empty, base
directory with subdirectories `A` then a blank-named one; the blank name
also normalizes to empty, so the exact-match pass returns it — not the
first subdirectory (`A`) in listing order. -/
theorem C10_counterexample :
    find_person_folder ("B".data)
        ⟨true, [⟨"A".data, true, false⟩, ⟨" ".data, true, false⟩]⟩ ("  ".data)
      = some (pathJoin ("B".data) (" ".data)) ∧
    some (pathJoin ("B".data) (" ".data)) ≠ some (pathJoin ("B".data) ("A".data)) := by
  constructor <;> decide

theorem person_exact_loop_nil_target (b : List Char) (l : List FsEntry)
    (h : ∀ e ∈ l, e.isDir = true → _norm e.name ≠ ([] : List Char)) :
    person_exact_loop b [] l = none := by
  rw [person_exact_loop_eq]
  have hn : l.find? (fun e => e.isDir && decide (_norm e.name = ([] : List Char))) = none := by
    rw [List.find?_eq_none]
    intro e he
    cases hd : e.isDir with
    | false => simp
    | true => simp [h e he hd]
  rw [hn]
  rfl

/-- Claim C10 as amended: if the person name normalizes to empty and no
subdirectory's name itself normalizes to empty, the exact pass finds
nothing, the fallback substring test accepts every subdirectory, and the
first subdirectory in listing order is returned (absent only when there is
no subdirectory). -/
theorem C10_blank_name_first_dir (base name : List Char) (fs : Folder)
    (hdir : fs.isDir = true) (hname : _norm name = [])
    (hne : ∀ e ∈ fs.listing, e.isDir = true → _norm e.name ≠ ([] : List Char)) :
    find_person_folder base fs name =
      (fs.listing.find? (fun e => e.isDir)).map (fun e => pathJoin base e.name) := by
  rw [find_person_folder]
  rw [if_neg (by simp [hdir])]
  rw [hname, person_exact_loop_nil_target base fs.listing hne]
  rw [person_fuzzy_loop_eq]
  have hp : (fun (e : FsEntry) => e.isDir && isSubstr ([] : List Char) (_norm e.name)) =
      (fun (e : FsEntry) => e.isDir) := by
    funext e
    rw [isSubstr_nil_left, Bool.and_true]
  rw [hp]

/-- Witness for the amended C10: a base directory with a file first and one
subdirectory resolves to that subdirectory for a whitespace-only name. -/
theorem C10_witness :
    find_person_folder ("B".data)
        ⟨true, [⟨"f.txt".data, false, true⟩, ⟨"John".data, true, false⟩]⟩ ("  ".data)
      = some (pathJoin ("B".data) ("John".data)) := by
  rw [C10_blank_name_first_dir ("B".data) ("  ".data)
    ⟨true, [⟨"f.txt".data, false, true⟩, ⟨"John".data, true, false⟩]⟩
    rfl (by decide) (by decide)]
  decide

/-! ## Claim C6: stop before the upload phase -/

/-- Claim C6: with the stop latch set before the document-upload phase
begins (so every checkpoint reads true), `fill_otms_form` performs no
document upload and fills no field — its trace is just the optional
navigation followed by the stop notification, i.e. the run returns at the
first stop checkpoint it reaches. -/
theorem C6_stop_before_uploads (env : OrchEnv) (stop : Nat → Bool)
    (h : ∀ k, stop k = true) :
    fill_otms_form env stop = (if env.url then [Ev.navigate] else []) ++ [Ev.stopped] := by
  have hfp : run_fields_phase env stop 0 = [Ev.stopped] := by
    rw [run_fields_phase, mappingList, runFields, if_pos (h 0)]
    rfl
  rw [fill_otms_form]
  cases hg : (if env.base_dir_path.isEmpty then none
      else person_name_loop env.row person_aliases) with
  | none => rw [hfp]
  | some pname =>
    cases hf : find_person_folder env.base_dir_path env.baseFs pname with
    | none => simp [hf, hfp]
    | some pf => simp [hf, runUploadSlots, uploadsList, h]

/-- Witness for C6: a concrete environment and an always-set stop latch. -/
theorem C6_witness :
    fill_otms_form
      ⟨true, "B".data, ⟨true, []⟩, fun _ => ⟨false, []⟩, fun _ => RowCell.absent, fun _ => true⟩
      (fun _ => true) = [Ev.navigate, Ev.stopped] := by
  have h := C6_stop_before_uploads
    ⟨true, "B".data, ⟨true, []⟩, fun _ => ⟨false, []⟩, fun _ => RowCell.absent, fun _ => true⟩
    (fun _ => true) (fun _ => rfl)
  simpa using h

/-! ## Claim C7: locator strategy order and failure message -/

theorem locate_loop_first_ok (page : List Char → Except (List Char) Nat) (el : Nat)
    (x : List Char) (post : List (List Char)) :
    ∀ (pre : List (List Char)) (lastErr : Option (List Char)),
      (∀ xp ∈ pre, ∃ e, page xp = Except.error e) → page x = Except.ok el →
      locate_loop page lastErr (pre ++ x :: post) = Except.ok el := by
  intro pre
  induction pre with
  | nil =>
    intro lastErr _ hx
    rw [List.nil_append, locate_loop, hx]
  | cons y pre ih =>
    intro lastErr hpre hx
    obtain ⟨e, he⟩ := hpre y (List.mem_cons_self _ _)
    rw [List.cons_append, locate_loop, he]
    exact ih (some e) (fun xp hxp => hpre xp (List.mem_cons_of_mem _ hxp)) hx

theorem locate_loop_all_err (page : List Char → Except (List Char) Nat)
    (x : List Char) (e : List Char) :
    ∀ (pre : List (List Char)) (lastErr : Option (List Char)),
      (∀ xp ∈ pre, ∃ e2, page xp = Except.error e2) → page x = Except.error e →
      locate_loop page lastErr (pre ++ [x]) = Except.error (some e) := by
  intro pre
  induction pre with
  | nil =>
    intro lastErr _ hx
    rw [List.nil_append, locate_loop, hx]
    rfl
  | cons y pre ih =>
    intro lastErr hpre hx
    obtain ⟨e2, he⟩ := hpre y (List.mem_cons_self _ _)
    rw [List.cons_append, locate_loop, he]
    exact ih (some e2) (fun xp hxp => hpre xp (List.mem_cons_of_mem _ hxp)) hx

theorem locate_err_msg_parts (what label e : List Char) :
    isSubstr label (locate_err_msg what label (some e)) = true ∧
    isSubstr e (locate_err_msg what label (some e)) = true := by
  constructor
  · have h := isSubstr_mid (what ++ " for label: ".data) label
      (" (".data ++ (e ++ ")".data))
    simpa [locate_err_msg, List.append_assoc] using h
  · have h := isSubstr_mid (what ++ " for label: ".data ++ (label ++ " (".data)) e (")".data)
    simpa [locate_err_msg, List.append_assoc] using h

/-- Claim C7: both locators try their structural strategies in source order
— the two table-row patterns strictly before the document-order
`following` fallbacks — returning the element of the first strategy that
finds one; when every strategy fails, they fail with a message containing
the label and the last underlying error. (The shared wall-clock deadline
dividing the timeout among the strategies is real-time behaviour outside
this model.) -/
theorem C7_locator_order (page : List Char → Except (List Char) Nat) (label : List Char) :
    (∃ a b c d, input_xpaths label = [a, b, c, d] ∧
      isPrefixL ("//tr[td[normalize-space()=".data) a = true ∧
      isPrefixL ("//tr[td[normalize-space()=".data) b = true ∧
      isPrefixL ("//*[normalize-space()=".data) c = true ∧
      isPrefixL ("//*[normalize-space()=".data) d = true) ∧
    (∃ a b, select_xpaths label = [a, b] ∧
      isPrefixL ("//tr[td[normalize-space()=".data) a = true ∧
      isPrefixL ("//*[normalize-space()=".data) b = true) ∧
    (∀ pre x post el, input_xpaths label = pre ++ x :: post →
      (∀ xp ∈ pre, ∃ e, page xp = Except.error e) → page x = Except.ok el →
      by_label_input page label = Except.ok el) ∧
    (∀ pre x post el, select_xpaths label = pre ++ x :: post →
      (∀ xp ∈ pre, ∃ e, page xp = Except.error e) → page x = Except.ok el →
      by_label_select page label = Except.ok el) ∧
    (∀ pre x e, input_xpaths label = pre ++ [x] →
      (∀ xp ∈ pre, ∃ e2, page xp = Except.error e2) → page x = Except.error e →
      ∃ m, by_label_input page label = Except.error m ∧
        isSubstr label m = true ∧ isSubstr e m = true) ∧
    (∀ pre x e, select_xpaths label = pre ++ [x] →
      (∀ xp ∈ pre, ∃ e2, page xp = Except.error e2) → page x = Except.error e →
      ∃ m, by_label_select page label = Except.error m ∧
        isSubstr label m = true ∧ isSubstr e m = true) := by
  refine ⟨?_, ?_, ?_, ?_, ?_, ?_⟩
  · exact ⟨_, _, _, _, rfl,
      isPrefixL_append_self _ _, isPrefixL_append_self _ _,
      isPrefixL_append_self _ _, isPrefixL_append_self _ _⟩
  · exact ⟨_, _, rfl, isPrefixL_append_self _ _, isPrefixL_append_self _ _⟩
  · intro pre x post el hsplit hpre hx
    rw [by_label_input, hsplit, locate_loop_first_ok page el x post pre none hpre hx]
  · intro pre x post el hsplit hpre hx
    rw [by_label_select, hsplit, locate_loop_first_ok page el x post pre none hpre hx]
  · intro pre x e hsplit hpre hx
    refine ⟨locate_err_msg ("Could not locate input/textarea".data) label (some e), ?_,
      (locate_err_msg_parts _ label e).1, (locate_err_msg_parts _ label e).2⟩
    rw [by_label_input, hsplit, locate_loop_all_err page x e pre none hpre hx]
  · intro pre x e hsplit hpre hx
    refine ⟨locate_err_msg ("Could not locate select".data) label (some e), ?_,
      (locate_err_msg_parts _ label e).1, (locate_err_msg_parts _ label e).2⟩
    rw [by_label_select, hsplit, locate_loop_all_err page x e pre none hpre hx]

/-- Witness for C7: on a page where the very first strategy finds element 5,
`by_label_input` returns element 5. -/
theorem C7_witness :
    by_label_input (fun _ => Except.ok 5) ("L".data) = Except.ok 5 := by
  have h := (C7_locator_order (fun _ => Except.ok 5) ("L".data)).2.2.1
  obtain ⟨a, b, c, d, habcd, -, -, -, -⟩ :=
    (C7_locator_order (fun _ => Except.ok 5) ("L".data)).1
  exact h [] a [b, c, d] 5 (by simpa using habcd)
    (by intro xp hxp; exact absurd hxp (List.not_mem_nil _)) rfl

/-! ## Claim C8: XPath string literals -/

theorem pySplitSQ_ne_nil (s : List Char) : pySplitSQ s ≠ [] := by
  induction s with
  | nil => simp [pySplitSQ]
  | cons c rest ih =>
    rw [pySplitSQ]
    by_cases hc : c = SQ
    · simp [hc]
    · rw [if_neg hc]
      cases hsp : pySplitSQ rest <;> simp

theorem pySplitSQ_no_SQ (s : List Char) : ∀ p ∈ pySplitSQ s, SQ ∉ p := by
  induction s with
  | nil =>
    intro p hp
    simp [pySplitSQ] at hp
    simp [hp]
  | cons c rest ih =>
    intro p hp
    rw [pySplitSQ] at hp
    by_cases hc : c = SQ
    · rw [if_pos hc] at hp
      rcases List.mem_cons.mp hp with rfl | hp2
      · simp
      · exact ih p hp2
    · rw [if_neg hc] at hp
      cases hsp : pySplitSQ rest with
      | nil =>
        rw [hsp] at hp
        simp at hp
        subst hp
        intro hmem
        simp at hmem
        exact hc hmem.symm
      | cons h t =>
        rw [hsp] at hp
        rcases List.mem_cons.mp hp with rfl | hp2
        · intro hmem
          rcases List.mem_cons.mp hmem with heq | hmem2
          · exact hc heq.symm
          · exact ih h (by rw [hsp]; exact List.mem_cons_self _ _) hmem2
        · exact ih p (by rw [hsp]; exact List.mem_cons_of_mem _ hp2)

theorem joinSep_SQ_pySplitSQ (s : List Char) : joinSep [SQ] (pySplitSQ s) = s := by
  induction s with
  | nil => rfl
  | cons c rest ih =>
    rw [pySplitSQ]
    by_cases hc : c = SQ
    · rw [if_pos hc]
      obtain ⟨h, t, hsp⟩ := List.exists_cons_of_ne_nil (pySplitSQ_ne_nil rest)
      rw [hsp]
      rw [hsp] at ih
      rw [joinSep, ih]
      simp [hc]
    · rw [if_neg hc]
      obtain ⟨h, t, hsp⟩ := List.exists_cons_of_ne_nil (pySplitSQ_ne_nil rest)
      rw [hsp]
      rw [hsp] at ih
      cases t with
      | nil =>
        rw [joinSep] at ih ⊢
        rw [ih]
      | cons t0 t1 =>
        rw [joinSep] at ih ⊢
        rw [← ih]
        simp

theorem pySplitSQ_two_le (s : List Char) (h : SQ ∈ s) : 2 ≤ (pySplitSQ s).length := by
  induction s with
  | nil => exact absurd h (List.not_mem_nil _)
  | cons c rest ih =>
    rw [pySplitSQ]
    by_cases hc : c = SQ
    · rw [if_pos hc]
      have hne := pySplitSQ_ne_nil rest
      have hlen : 0 < (pySplitSQ rest).length := List.length_pos.mpr hne
      simp only [List.length_cons]
      omega
    · rw [if_neg hc]
      have hrest : SQ ∈ rest := by
        rcases List.mem_cons.mp h with heq | hm
        · exact absurd heq.symm hc
        · exact hm
      have ih2 := ih hrest
      obtain ⟨h0, t, hsp⟩ := List.exists_cons_of_ne_nil (pySplitSQ_ne_nil rest)
      rw [hsp]
      rw [hsp] at ih2
      simp only [List.length_cons] at ih2 ⊢
      omega

theorem render_interleave (parts : List (List Char)) :
    joinSep (", ".data) ((interleaveParts parts).map segRender) =
      joinSep xlitSep (parts.map (fun p => SQ :: (p ++ [SQ]))) := by
  induction parts with
  | nil => rfl
  | cons p rest ih =>
    cases rest with
    | nil => rfl
    | cons q rrest =>
      have hne : ∃ m0 mt, (interleaveParts (q :: rrest)).map segRender = m0 :: mt := by
        cases rrest <;> exact ⟨_, _, rfl⟩
      obtain ⟨m0, mt, hm⟩ := hne
      conv_lhs => rw [interleaveParts, List.map_cons, List.map_cons, hm, joinSep, joinSep, ← hm]
      rw [ih]
      conv_rhs => rw [List.map_cons, List.map_cons, joinSep]
      simp [segRender, xlitSep, List.map_cons, List.append_assoc]

theorem eval_interleave (parts : List (List Char)) :
    ((interleaveParts parts).map segEval).flatten = joinSep [SQ] parts := by
  induction parts with
  | nil => rfl
  | cons p rest ih =>
    cases rest with
    | nil => simp [interleaveParts, segEval, joinSep]
    | cons q rrest =>
      rw [interleaveParts, List.map_cons, List.map_cons, List.flatten_cons,
        List.flatten_cons, ih, joinSep]
      simp [segEval, List.append_assoc]

theorem interleave_valid (parts : List (List Char)) (h : ∀ p ∈ parts, SQ ∉ p) :
    ∀ a ∈ interleaveParts parts, segValid a := by
  induction parts with
  | nil =>
    intro a ha
    exact absurd ha (List.not_mem_nil _)
  | cons p rest ih =>
    cases rest with
    | nil =>
      intro a ha
      simp [interleaveParts] at ha
      subst ha
      exact h p (List.mem_cons_self _ _)
    | cons q rrest =>
      intro a ha
      rw [interleaveParts] at ha
      rcases List.mem_cons.mp ha with rfl | ha2
      · exact h p (List.mem_cons_self _ _)
      · rcases List.mem_cons.mp ha2 with rfl | ha3
        · show DQ ∉ [SQ]
          decide
        · exact ih (fun r hr => h r (List.mem_cons_of_mem _ hr)) a ha3

theorem interleave_two_le (parts : List (List Char)) (h : 2 ≤ parts.length) :
    2 ≤ (interleaveParts parts).length := by
  cases parts with
  | nil => simp at h
  | cons p rest =>
    cases rest with
    | nil => simp at h
    | cons q rrest =>
      rw [interleaveParts]
      simp only [List.length_cons]
      omega

/-- Claim C8: for every label, `_xpath_literal` produces a syntactically
valid XPath string expression evaluating to exactly the label — witnessed
by a valid literal/concat AST whose rendering is the produced string —
single-quoted when the label has no apostrophe, double-quoted when it has
an apostrophe but no double quote, and a `concat(...)` of single- and
double-quoted segments when both quote kinds appear. -/
theorem C8_xpath_literal (s : List Char) :
    (∃ ast, xlitValid ast ∧ xlitRender ast = _xpath_literal s ∧ xlitEval ast = s) ∧
    (SQ ∉ s → _xpath_literal s = SQ :: (s ++ [SQ])) ∧
    (SQ ∈ s → DQ ∉ s → _xpath_literal s = DQ :: (s ++ [DQ])) ∧
    (SQ ∈ s → DQ ∈ s → isPrefixL ("concat(".data) (_xpath_literal s) = true) := by
  by_cases h1 : SQ ∈ s
  · by_cases h2 : DQ ∈ s
    · refine ⟨⟨XLit.cat (interleaveParts (pySplitSQ s)), ⟨?_, ?_⟩, ?_, ?_⟩, ?_, ?_, ?_⟩
      · exact interleave_two_le _ (pySplitSQ_two_le s h1)
      · exact interleave_valid _ (pySplitSQ_no_SQ s)
      · rw [xlitRender, _xpath_literal, if_pos h1, if_pos h2, render_interleave]
      · rw [xlitEval, eval_interleave, joinSep_SQ_pySplitSQ]
      · intro hn
        exact absurd h1 hn
      · intro _ hn2
        exact absurd h2 hn2
      · intro _ _
        rw [_xpath_literal, if_pos h1, if_pos h2]
        exact isPrefixL_append_self _ _
    · refine ⟨⟨XLit.lit (XSeg.dq s), h2, ?_, rfl⟩, ?_, ?_, ?_⟩
      · rw [_xpath_literal, if_pos h1, if_neg h2]
        rfl
      · intro hn
        exact absurd h1 hn
      · intro _ _
        rw [_xpath_literal, if_pos h1, if_neg h2]
      · intro _ h2'
        exact absurd h2' h2
  · refine ⟨⟨XLit.lit (XSeg.sq s), h1, ?_, rfl⟩, ?_, ?_, ?_⟩
    · rw [_xpath_literal, if_neg h1]
      rfl
    · intro _
      rw [_xpath_literal, if_neg h1]
    · intro h1' _
      exact absurd h1' h1
    · intro h1' _
      exact absurd h1' h1

/-- Witness for C8 at labels covering all three quoting shapes. -/
theorem C8_witness :
    _xpath_literal ("ab".data) = SQ :: ("ab".data ++ [SQ]) ∧
    _xpath_literal ['a', SQ, 'b'] = DQ :: (['a', SQ, 'b'] ++ [DQ]) ∧
    isPrefixL ("concat(".data) (_xpath_literal ['a', SQ, DQ, 'b']) = true :=
  ⟨(C8_xpath_literal ("ab".data)).2.1 (by decide),
   (C8_xpath_literal ['a', SQ, 'b']).2.2.1 (by decide) (by decide),
   (C8_xpath_literal ['a', SQ, DQ, 'b']).2.2.2 (by decide) (by decide)⟩
